import Mathlib

/-!
Verification development for the document-extractor MCP server
(`src/index.js`).  The JavaScript source is shallowly embedded: module-level
mutable configuration becomes an explicit `ConfigState` record, the external
PocketBase store becomes an explicit `Store` value threaded through the
upsert, network fetches become a `String → FetchResponse` oracle whose
invocations are logged in a trace list, and the cheerio-parsed page becomes a
`Page` record of selector results (the markup library itself is an external
collaborator, specified only at its interface boundary).
-/

namespace DocMcp

/-! ## JavaScript string primitives used by the source -/

/-- JS `a || b` on strings: the empty string is falsy. -/
def jsOrS (a b : String) : String := if a = "" then b else a

/-- Whitespace characters recognised by the JS `\s` class (the subset the
source ever meets in practice: space, tab, newline, CR, VT, FF). -/
def jsWs (c : Char) : Bool :=
  c = ' ' || c = '\t' || c = '\n' || c = '\r' || c = '\x0b' || c = '\x0c'

/-- JS `String.prototype.trim` on a character list. -/
def jsTrimL (l : List Char) : List Char :=
  ((l.dropWhile jsWs).reverse.dropWhile jsWs).reverse

/-- JS `String.prototype.trim`. -/
def jsTrim (s : String) : String := String.mk (jsTrimL s.data)

/-- `replace(/\s+/g, ' ')`: each maximal whitespace run becomes one space.
The boolean flag records whether the previous character was whitespace. -/
def collapseWsAux : Bool → List Char → List Char
  | _, [] => []
  | prevWs, c :: rest =>
    if jsWs c then
      if prevWs then collapseWsAux true rest
      else ' ' :: collapseWsAux true rest
    else c :: collapseWsAux false rest

/-- JS `s.replace(/\s+/g, ' ')`. -/
def collapseWs (s : String) : String := String.mk (collapseWsAux false s.data)

/-- Is `pat` a prefix of `l`? -/
def isPrefixL : List Char → List Char → Bool
  | [], _ => true
  | _ :: _, [] => false
  | a :: as, b :: bs => a = b && isPrefixL as bs

/-- JS `s.includes(pat)` on character lists (pattern first). -/
def containsSubL (pat : List Char) : List Char → Bool
  | [] => isPrefixL pat []
  | c :: rest => isPrefixL pat (c :: rest) || containsSubL pat rest

/-- JS `s.includes(pat)`. -/
def jsIncludes (s pat : String) : Bool := containsSubL pat.data s.data

/-- JS `s.replace(pat, rep)` with a string pattern: replaces only the first
occurrence, leftmost match. -/
def replaceFirstL (pat rep : List Char) : List Char → List Char
  | [] => []
  | c :: rest =>
    if isPrefixL pat (c :: rest) then rep ++ (c :: rest).drop pat.length
    else c :: replaceFirstL pat rep rest

/-- JS `s.replace(pat, rep)` (first occurrence only). -/
def jsReplaceFirst (s pat rep : String) : String :=
  String.mk (replaceFirstL pat.data rep.data s.data)

/-- JS `s.split(sep)` for a one-character separator. -/
def splitCharL (sep : Char) : List Char → List (List Char)
  | [] => [[]]
  | c :: rest =>
    let r := splitCharL sep rest
    if c = sep then [] :: r
    else
      match r with
      | [] => [[c]]
      | h :: t => (c :: h) :: t

/-- `content.split(' ').filter(w => w.length > 0).length`. -/
def jsWordCount (s : String) : Nat :=
  ((splitCharL ' ' s.data).filter (fun w => w ≠ [])).length

/-- JS `s.substring(0, n)`. -/
def jsSubstringTo (s : String) (n : Nat) : String := String.mk (s.data.take n)

/-! ## Configuration lifecycle (`initializeConfig`, `applySmitheryConfig`) -/

/-- The `process.env` variables the source reads and writes.  A `none` entry
is an unset variable; JS reads them as `undefined`. -/
structure Env where
  pocketbaseUrl : Option String
  pocketbaseEmail : Option String
  pocketbasePassword : Option String
  documentsCollection : Option String
  debug : Option String
  port : Option String
  httpPort : Option String
  deriving Repr, DecidableEq

/-- A constructed PocketBase client.  `tag` is a construction counter so that
distinct `new PocketBase(...)` calls yield distinct values: it witnesses
object identity in the embedding. -/
structure PBClient where
  baseUrl : String
  tag : Nat
  deriving Repr, DecidableEq

/-- The module-level mutable state of the source: `pb`, `DOCUMENTS_COLLECTION`,
`DEBUG`, `HTTP_PORT`, `configInitialized`, `dotenvInitialized`, plus the
environment and the client-construction counter. -/
structure ConfigState where
  env : Env
  pb : Option PBClient
  documentsCollection : Option String
  debug : Option Bool
  httpPort : Option String
  configInitialized : Bool
  dotenvInitialized : Bool
  pbInstances : Nat
  deriving Repr, DecidableEq

/-- JS `process.env.X || d`: unset and empty-string values fall to `d`. -/
def getEnvOr (v : Option String) (d : String) : String :=
  match v with
  | some s => if s = "" then d else s
  | none => d

/-- `process.env.PORT || process.env.HTTP_PORT || 3000` (the numeric default
rendered as a string). -/
def getPortOr (a b : Option String) (d : String) : String :=
  match a with
  | some s => if s = "" then getEnvOr b d else s
  | none => getEnvOr b d

/-- `initializeDotenv`: `dotenv.config()` merges a `.env` file into unset
variables — external file I/O, modelled as absent (no file), so only the
flag changes. -/
def initializeDotenv (s : ConfigState) : ConfigState :=
  if s.dotenvInitialized then s else
    { s with dotenvInitialized := true }

/-- `initializeConfig` from the source: early return when already
initialized; otherwise construct the PocketBase client and read
`DOCUMENTS_COLLECTION`, `DEBUG`, `PORT`/`HTTP_PORT` from the environment. -/
def initializeConfig (s : ConfigState) : ConfigState :=
  if s.configInitialized then s else
    let s1 := initializeDotenv s
    { s1 with
      pb := some { baseUrl := getEnvOr s1.env.pocketbaseUrl "http://127.0.0.1:8090",
                   tag := s1.pbInstances }
      pbInstances := s1.pbInstances + 1
      documentsCollection := some (getEnvOr s1.env.documentsCollection "documents")
      debug := some (s1.env.debug = some "true")
      httpPort := some (getPortOr s1.env.port s1.env.httpPort "3000")
      configInitialized := true }

/-! ## Smithery query-parameter configuration -/

/-- A parsed query-parameter configuration value: a string leaf or a nested
object, as built by `parseSmitheryConfig`. -/
inductive CVal where
  | str : String → CVal
  | obj : List (String × CVal) → CVal

/-- JS truthiness of a configuration value: the empty string is falsy, every
object is truthy. -/
def jsTruthyVal : CVal → Bool
  | .str s => if s = "" then false else true
  | .obj _ => true

/-- Assigning to `process.env` coerces the value to a string. -/
def cvalToEnvString : CVal → String
  | .str s => s
  | .obj _ => "[object Object]"

/-- Object property lookup. -/
def getKey (k : String) : List (String × CVal) → Option CVal
  | [] => none
  | (k', v) :: rest => if k' = k then some v else getKey k rest

/-- Object property assignment (overwrite or append). -/
def setKey (k : String) (v : CVal) : List (String × CVal) → List (String × CVal)
  | [] => [(k, v)]
  | (k', v') :: rest =>
    if k' = k then (k, v) :: rest else (k', v') :: setKey k v rest

/-- The inner loop of `parseSmitheryConfig`: walk the dotted key path,
creating `{}` at falsy intermediate slots, and assign the value at the last
key.  The source file is an ES module and therefore runs in strict mode, so
a property write reached through a string primitive (for instance the query
`a=x&a.b=y`) throws a `TypeError`; descending into a `.str` with path still
to consume always ends in such a write and performs no mutation first, hence
the `.error` result.  Only object slots are ever assigned successfully. -/
def insertPath : CVal → List String → String → Except Unit CVal
  | cfg, [], _ => .ok cfg
  | .str _, _ :: _, _ => .error ()
  | .obj es, [k], v => .ok (.obj (setKey k (.str v) es))
  | .obj es, k :: k' :: rest, v =>
    let child :=
      match getKey k es with
      | some c => if jsTruthyVal c then c else .obj []
      | none => .obj []
    match insertPath child (k' :: rest) v with
    | .ok child' => .ok (.obj (setKey k child' es))
    | .error e => .error e

/-- The loop of `parseSmitheryConfig` over the query pairs: the first pair
whose dotted path throws aborts the whole parse (the exception escapes the
function), discarding the object built so far. -/
def parseSmitheryAux : CVal → List (String × String) → Except Unit CVal
  | cfg, [] => .ok cfg
  | cfg, kv :: rest =>
    match insertPath cfg ((splitCharL '.' kv.1.data).map String.mk) kv.2 with
    | .ok cfg' => parseSmitheryAux cfg' rest
    | .error e => .error e

/-- `parseSmitheryConfig`: fold the flat query pairs into a nested object by
splitting each key on dots; a strict-mode `TypeError` on any pair propagates
to the caller. -/
def parseSmitheryConfig (query : List (String × String)) : Except Unit CVal :=
  parseSmitheryAux (.obj []) query

/-- Top-level property lookup on a parsed configuration. -/
def cfgGet (cfg : CVal) (k : String) : Option CVal :=
  match cfg with
  | .str _ => none
  | .obj es => getKey k es

/-- `applySmitheryConfig`: copy the four recognised keys into the
environment when truthy.  No other environment variable is touched. -/
def applySmitheryConfig (cfg : CVal) (env0 : Env) : Env :=
  let env1 :=
    match cfgGet cfg "pocketbaseUrl" with
    | some v => if jsTruthyVal v then { env0 with pocketbaseUrl := some (cvalToEnvString v) } else env0
    | none => env0
  let env2 :=
    match cfgGet cfg "pocketbaseEmail" with
    | some v => if jsTruthyVal v then { env1 with pocketbaseEmail := some (cvalToEnvString v) } else env1
    | none => env1
  let env3 :=
    match cfgGet cfg "pocketbasePassword" with
    | some v => if jsTruthyVal v then { env2 with pocketbasePassword := some (cvalToEnvString v) } else env2
    | none => env2
  match cfgGet cfg "defaultCollection" with
  | some v => if jsTruthyVal v then { env3 with documentsCollection := some (cvalToEnvString v) } else env3
  | none => env3

/-- The `/mcp` (and `/sse`) handler's override step: when the request carries
query parameters, parse them, apply them to the environment, clear
`configInitialized`, and reinitialize.  When the parse throws, the handler's
surrounding try/catch answers the request with a 500 before any of the
override, flag-clearing, or reinitialization steps have run, so the
configuration state is returned unchanged (the error response itself lies
outside the configuration state this function models). -/
def applyQueryAndReload (query : List (String × String)) (s : ConfigState) : ConfigState :=
  if query = [] then s else
    match parseSmitheryConfig query with
    | .error _ => s
    | .ok cfg =>
      initializeConfig
        { s with env := applySmitheryConfig cfg s.env, configInitialized := false }

/-! ## The authenticate tool handler -/

/-- Arguments to the `authenticate` tool (already schema-validated: a URL, an
email, a nonempty password). -/
structure AuthArgs where
  pocketbaseUrl : String
  email : String
  password : String
  deriving Repr, DecidableEq

/-- The `authenticate` tool handler's effect on module state.  `testOk`
abstracts the outcome of the external calls against the temporary client
(`authWithPassword`, `collections.getList`, `health.check`): when any of them
throws, the catch block returns an error result and no assignment has run;
when all succeed, the handler overwrites the three credential environment
variables, clears `configInitialized`, nulls `pb`, and reinitializes. -/
def authenticateToolHandler (args : AuthArgs) (testOk : Bool) (s : ConfigState) :
    Bool × ConfigState :=
  if testOk then
    let env1 := { s.env with
      pocketbaseUrl := some args.pocketbaseUrl
      pocketbaseEmail := some args.email
      pocketbasePassword := some args.password }
    (true, initializeConfig { s with env := env1, configInitialized := false, pb := none })
  else (false, s)

/-! ## Document store and `storeDocument` upsert

The PocketBase store itself is an external collaborator; per the spec it is
required only to support get/find/create/update/delete on a named
collection.  `Store` models the collection's records plus counters for the
create and update operations performed against it.  The identity lookup
filter `metadata.url = "<url>"` is modelled as equality on the stored
`metadata.url` field, which coincides with the interpolated filter whenever
the URL contains no double-quote character (the raw filter strings
themselves are analysed separately below). -/

/-- The metadata object attached to a document.  Fields used only by one
extractor are `Option`/defaultable; PocketBase stores the object as json. -/
structure Metadata where
  source : String
  url : String
  originalUrl : Option String
  rawUrl : Option String
  extractedAt : Nat
  wordCount : Nat
  description : Option String
  keywords : Option String
  author : Option String
  headers : List (String × String)
  repository : Option String
  filename : Option String
  fileType : Option String
  contentLength : Nat
  domain : String
  deriving Repr, DecidableEq

/-- An extraction result: the `docData` value passed to `storeDocument`. -/
structure DocData where
  title : String
  content : String
  metadata : Metadata
  deriving Repr, DecidableEq

/-- A record in the documents collection. -/
structure StoredDoc where
  id : Nat
  title : String
  content : String
  metadata : Metadata
  created : Nat
  updated : Option Nat
  deriving Repr, DecidableEq

/-- The documents collection with store-assigned ids and operation
counters. -/
structure Store where
  docs : List StoredDoc
  nextId : Nat
  creates : Nat
  updates : Nat
  deriving Repr, DecidableEq

/-- `getList(1, 1, filter: metadata.url = "<url>")`: the first record whose
metadata url equals the given url. -/
def findByUrl (docs : List StoredDoc) (url : String) : Option StoredDoc :=
  docs.find? (fun d => d.metadata.url == url)

/-- PocketBase `update(id, ...)`: replace the record with the given id. -/
def replaceById (docs : List StoredDoc) (i : Nat) (d : StoredDoc) : List StoredDoc :=
  docs.map (fun x => if x.id = i then d else x)

/-- `storeDocument`: look up an existing record by `metadata.url`; update it
in place when found (preserving its id and `created`, stamping `updated`),
otherwise create a fresh record.  Returns the record, the `isUpdate` flag,
and the new store. -/
def storeDocument (docData : DocData) (now : Nat) (s : Store) :
    StoredDoc × Bool × Store :=
  match findByUrl s.docs docData.metadata.url with
  | some existing =>
    let updatedDoc : StoredDoc :=
      { id := existing.id, title := docData.title, content := docData.content,
        metadata := docData.metadata, created := existing.created, updated := some now }
    (updatedDoc, true,
      { docs := replaceById s.docs existing.id updatedDoc,
        nextId := s.nextId, creates := s.creates, updates := s.updates + 1 })
  | none =>
    let newDoc : StoredDoc :=
      { id := s.nextId, title := docData.title, content := docData.content,
        metadata := docData.metadata, created := now, updated := none }
    (newDoc, false,
      { docs := s.docs ++ [newDoc],
        nextId := s.nextId + 1, creates := s.creates + 1, updates := s.updates })

/-! ## Streamable HTTP session registry (`/mcp` handler) -/

/-- One streamable-HTTP session: the transport plus the freshly constructed
server bound to it.  `tag` is the construction counter witnessing object
identity. -/
structure Session where
  sessionId : String
  tag : Nat
  deriving Repr, DecidableEq

/-- `transports.streamable` plus the construction counter. -/
structure Registry where
  streamable : List (String × Session)
  nextTag : Nat
  deriving Repr, DecidableEq

/-- Association-list lookup for the session mapping. -/
def getSessionKey (sid : String) : List (String × Session) → Option Session
  | [] => none
  | (k, v) :: rest => if k = sid then some v else getSessionKey sid rest

/-- Map lookup in the session registry. -/
def lookupSession (r : Registry) (sid : String) : Option Session :=
  getSessionKey sid r.streamable

/-- Map insert in the session registry. -/
def insertSessionKey (sid : String) (v : Session) :
    List (String × Session) → List (String × Session)
  | [] => [(sid, v)]
  | (k, v') :: rest =>
    if k = sid then (sid, v) :: rest else (k, v') :: insertSessionKey sid v rest

/-- The session-resolution step of the `/mcp` handler: a truthy
`mcp-session-id` header naming a registered transport is reused; otherwise a
session is created under `sessionId || randomUUID()` and registered.  `uuid`
is the value `randomUUID()` would return.  Returns the session serving the
request, the session id the transport reports to the caller, and the new
registry. -/
def handleMcpSession (r : Registry) (header : Option String) (uuid : String) :
    Session × String × Registry :=
  let known :=
    match header with
    | some s => if s = "" then none else lookupSession r s
    | none => none
  match known with
  | some t => (t, t.sessionId, r)
  | none =>
    let newSessionId :=
      match header with
      | some s => if s = "" then uuid else s
      | none => uuid
    let sess : Session := { sessionId := newSessionId, tag := r.nextTag }
    (sess, newSessionId,
      { streamable := insertSessionKey newSessionId sess r.streamable,
        nextTag := r.nextTag + 1 })

/-! ## Content extraction pipeline

Network fetches are an oracle `String → FetchResponse`; each extractor also
returns the list of URLs it fetched, in order, so that fetch counting is
observable.  HTML parsing (cheerio) is an external collaborator: a parsed
document is a `Page` giving, for each selector the source consults, the
match count and concatenated text. -/

/-- The outcome of one `fetch(url)` call. -/
structure FetchResponse where
  ok : Bool
  status : Nat
  body : String
  deriving Repr, DecidableEq

/-- The result of evaluating one cheerio selector: match count and the
`.text()` of the matched region. -/
structure SelResult where
  count : Nat
  text : String
  deriving Repr, DecidableEq

/-- A cheerio-parsed document, at the interface the source consults: the
dedicated title locators, the content-selector evaluator, and the
best-effort metadata. -/
structure Page where
  h1First : String
  dataBiTitle : String
  contentH1First : String
  titleTag : String
  sel : String → SelResult
  description : Option String
  keywords : Option String
  author : Option String
  headers : List (String × String)

/-- The error taxonomy of the extraction pipeline, from the messages the
source throws. -/
inductive ExtractErr where
  | fetchError (status : Nat)
  | insufficientContent
  | noContent
  | unsupportedTarget
  | invalidGitHubUrl
  | unsupportedSource
  deriving Repr, DecidableEq

/-- The ordered content-selector cascade of `extractFromMicrosoftLearn`. -/
def contentSelectors : List String :=
  ["[data-bi-name=\"content\"]", ".content", "main article", ".markdown-body",
   "main .content", "article", "main"]

/-- Title resolution of `extractFromMicrosoftLearn`: `h1` first, then
`[data-bi-name="title"]`, then `.content h1`, then the `title` tag, then the
fixed placeholder. -/
def msTitle (p : Page) : String :=
  jsOrS (jsTrim p.h1First)
    (jsOrS (jsTrim p.dataBiTitle)
      (jsOrS (jsTrim p.contentH1First)
        (jsOrS (jsTrim p.titleTag) "Untitled Microsoft Learn Document")))

/-- The content-selector loop: a selector with at least one match overwrites
`content` with its trimmed text; the loop stops at the first selector whose
trimmed text exceeds 100 characters. -/
def msContentLoop (p : Page) : List String → String → String
  | [], acc => acc
  | selName :: rest, acc =>
    let r := p.sel selName
    if r.count > 0 then
      let c := jsTrim r.text
      if c.length > 100 then c else msContentLoop p rest c
    else msContentLoop p rest acc

/-- `$('h2, h3')` header harvesting: trim, drop empties, keep the first
ten. -/
def msHeaders (hs : List (String × String)) : List (String × String) :=
  ((hs.map (fun h => (h.1, jsTrim h.2))).filter (fun h => h.2 ≠ "")).take 10

/-- `extractFromMicrosoftLearn`: fetch, parse, run the title fallbacks and
the content cascade, collapse whitespace, and fail with
`insufficientContent` below 50 characters. -/
def extractFromMicrosoftLearn (fetchF : String → FetchResponse)
    (parse : String → Page) (url : String) (now : Nat) :
    Except ExtractErr DocData × List String :=
  let resp := fetchF url
  if resp.ok = false then (.error (.fetchError resp.status), [url])
  else
    let p := parse resp.body
    let title := msTitle p
    let content := jsTrim (collapseWs (msContentLoop p contentSelectors ""))
    if content.length < 50 then (.error .insufficientContent, [url])
    else
      (.ok { title := jsSubstringTo title 255, content := content,
             metadata :=
               { source := "Microsoft Learn", url := url, originalUrl := some url,
                 rawUrl := none, extractedAt := now,
                 wordCount := jsWordCount content,
                 description := some ((p.description.getD "")),
                 keywords := some ((p.keywords.getD "")),
                 author := some ((p.author.getD "")),
                 headers := msHeaders p.headers,
                 repository := none, filename := none, fileType := none,
                 contentLength := content.length,
                 domain := "learn.microsoft.com" } }, [url])

/-- The leftmost match of the regex `pat ++ ([^\/]+)\/([^\/]+)` where `pat`
is a literal such as `github.com/`: scan for the literal, then require a
nonempty slash-free segment, a slash, and another nonempty slash-free
segment. -/
def parseOwnerRepoAfter (l : List Char) : Option (String × String) :=
  let owner := l.takeWhile (fun c => c ≠ '/')
  if owner.isEmpty then none
  else
    match l.drop owner.length with
    | '/' :: rest2 =>
      let repo := rest2.takeWhile (fun c => c ≠ '/')
      if repo.isEmpty then none else some (String.mk owner, String.mk repo)
    | _ => none

/-- Leftmost-match scan for the owner/repo regex. -/
def githubMatchL (pat : List Char) : List Char → Option (String × String)
  | [] => none
  | c :: rest =>
    if isPrefixL pat (c :: rest) then
      match parseOwnerRepoAfter ((c :: rest).drop pat.length) with
      | some r => some r
      | none => githubMatchL pat rest
    else githubMatchL pat rest

/-- The raw-URL derivation of `extractFromGitHub`: blob URLs are rewritten
to raw form, tree URLs are rejected, raw URLs pass through, and a bare
repository URL falls back to the main-branch README. -/
def toRawUrl (url : String) : Except ExtractErr String :=
  if jsIncludes url "/blob/" then
    .ok (jsReplaceFirst (jsReplaceFirst url "github.com" "raw.githubusercontent.com")
          "/blob/" "/")
  else if jsIncludes url "/tree/" then .error .unsupportedTarget
  else if jsIncludes url "raw.githubusercontent.com" then .ok url
  else
    match githubMatchL ("github.com/".data) url.data with
    | some (owner, repo) =>
      .ok ("https://raw.githubusercontent.com/" ++ owner ++ "/" ++ repo ++ "/main/README.md")
    | none => .error .invalidGitHubUrl

/-- `filename.replace(/\.[^/.]+$/, '')`: strip a final dot-extension that is
nonempty and slash-free. -/
def stripExt (filename : String) : String :=
  let parts := splitCharL '.' filename.data
  match parts.getLast? with
  | some lastPart =>
    if parts.length ≥ 2 ∧ lastPart ≠ [] ∧ lastPart.all (fun c => c ≠ '/') then
      String.mk (List.intercalate ['.'] parts.dropLast)
    else filename
  | none => filename

/-- `filename.includes('.') ? filename.split('.').pop().toLowerCase() :
'unknown'`. -/
def ghFileType (filename : String) : String :=
  if jsIncludes filename "." then
    String.mk ((((splitCharL '.' filename.data).getLast?).getD []).map Char.toLower)
  else "unknown"

/-- The tail of `extractFromGitHub` once the effective raw URL and the
response body are fixed: reject blank content, derive the title from the
filename, and assemble the metadata.  Note: because the source binds the
retry body to an inner `const`, the `content` reaching this point is always
the text of the first response, even after a successful master-branch
retry. -/
def finishGitHub (url rawUrl content : String) (now : Nat) (trace : List String) :
    Except ExtractErr DocData × List String :=
  if jsTrim content = "" then (.error .noContent, trace)
  else
    let filename := jsOrS (String.mk (((splitCharL '/' rawUrl.data).getLast?).getD []))
                      "GitHub Document"
    let title := stripExt filename
    let repository :=
      match githubMatchL ("raw.githubusercontent.com/".data) rawUrl.data with
      | some (owner, repo) => owner ++ "/" ++ repo
      | none => "Unknown"
    (.ok { title := jsSubstringTo title 255, content := content,
           metadata :=
             { source := "GitHub", url := url, originalUrl := none,
               rawUrl := some rawUrl, extractedAt := now,
               wordCount := jsWordCount content,
               description := none, keywords := none, author := none,
               headers := [],
               repository := some repository,
               filename := some filename,
               fileType := some (ghFileType filename),
               contentLength := content.length,
               domain := "github.com" } }, trace)

/-- `extractFromGitHub`: derive the raw URL, fetch it, and on a non-success
response retry exactly once against the master branch when the raw URL
contains `/main/`; otherwise (or when the retry also fails) fail with the
first response's status. -/
def extractFromGitHub (fetchF : String → FetchResponse) (url : String) (now : Nat) :
    Except ExtractErr DocData × List String :=
  match toRawUrl url with
  | .error e => (.error e, [])
  | .ok rawUrl0 =>
    let resp := fetchF rawUrl0
    if resp.ok then finishGitHub url rawUrl0 resp.body now [rawUrl0]
    else if jsIncludes rawUrl0 "/main/" then
      let masterUrl := jsReplaceFirst rawUrl0 "/main/" "/master/"
      let masterResp := fetchF masterUrl
      if masterResp.ok then finishGitHub url masterUrl resp.body now [rawUrl0, masterUrl]
      else (.error (.fetchError resp.status), [rawUrl0, masterUrl])
    else (.error (.fetchError resp.status), [rawUrl0])

/-- The URL dispatch of the `extract_document` handler (after a successful
authentication step): Microsoft Learn URLs, then GitHub URLs, else an
unsupported-source failure with no fetch performed. -/
def extractDocument (fetchF : String → FetchResponse) (parse : String → Page)
    (url : String) (now : Nat) : Except ExtractErr DocData × List String :=
  if jsIncludes url "learn.microsoft.com" then
    extractFromMicrosoftLearn fetchF parse url now
  else if jsIncludes url "github.com" || jsIncludes url "raw.githubusercontent.com" then
    extractFromGitHub fetchF url now
  else (.error .unsupportedSource, [])

/-! ## The raw PocketBase filter strings -/

/-- The search filter of `searchDocuments`, by raw interpolation of the
query. -/
def searchFilter (query : String) : String :=
  "title ~ \"" ++ query ++ "\" || content ~ \"" ++ query ++ "\""

/-- The identity-lookup filter of `storeDocument`, by raw interpolation of
the URL. -/
def urlFilter (url : String) : String :=
  "metadata.url = \"" ++ url ++ "\""

/-- Segmentation of a filter string at double quotes: the list of maximal
quote-free runs, in order.  Consecutive entries alternate between
outside-literal and inside-literal positions, so this is the structural view
a quote-delimited filter parser sees. -/
def splitQuotes : List Char → List (List Char)
  | [] => [[]]
  | c :: rest =>
    if c = '"' then [] :: splitQuotes rest
    else
      match splitQuotes rest with
      | [] => [[c]]
      | h :: t => (c :: h) :: t

/-! ## Concrete example values used by witnesses -/

/-- Metadata of a first example extraction of a GitHub README. -/
def exampleMeta1 : Metadata :=
  { source := "GitHub", url := "https://github.com/a/b", originalUrl := none,
    rawUrl := some "https://raw.githubusercontent.com/a/b/main/README.md",
    extractedAt := 1, wordCount := 2, description := none, keywords := none,
    author := none, headers := [], repository := some "a/b",
    filename := some "README.md", fileType := some "md", contentLength := 9,
    domain := "github.com" }

/-- First example extraction. -/
def exampleIngest1 : DocData :=
  { title := "README", content := "first one", metadata := exampleMeta1 }

/-- Second example extraction of the same URL. -/
def exampleIngest2 : DocData :=
  { title := "README", content := "second v2",
    metadata := { exampleMeta1 with extractedAt := 2 } }

/-- An empty example store. -/
def exampleStore0 : Store := { docs := [], nextId := 0, creates := 0, updates := 0 }

/-- An example registered session. -/
def exampleSession : Session := { sessionId := "s1", tag := 0 }

/-- An example registry holding exactly `exampleSession` under `"s1"`. -/
def exampleRegistry : Registry := { streamable := [("s1", exampleSession)], nextTag := 1 }

/-- A 150-character article text (note the double space after `you`, which
whitespace collapsing removes). -/
def exampleArticleText : String :=
  "Azure Functions is a serverless compute service that lets you  run event-driven code on demand with no need to provision or manage any cloud hardware."

/-- The whitespace-collapsed form of `exampleArticleText`. -/
def exampleArticleCollapsed : String :=
  "Azure Functions is a serverless compute service that lets you run event-driven code on demand with no need to provision or manage any cloud hardware."

/-- A parsed documentation page with no `h1`, no `[data-bi-name]` elements,
no `.content` or `.markdown-body` region, and a 150-character article under
`main`. -/
def examplePage : Page :=
  { h1First := "", dataBiTitle := "", contentH1First := "",
    titleTag := "Azure Functions overview - Microsoft Learn",
    sel := fun selName =>
      if selName = "main article" ∨ selName = "article" ∨ selName = "main" then
        { count := 1, text := exampleArticleText }
      else { count := 0, text := "" },
    description := some "Overview of Azure Functions.",
    keywords := none, author := none,
    headers := [("h2", "Scenarios"), ("h3", "Hosting options")] }

/-- A parsed page whose every selector region is far below the minimum
content length. -/
def exampleThinPage : Page :=
  { h1First := "", dataBiTitle := "", contentH1First := "", titleTag := "Thin",
    sel := fun _ => { count := 1, text := "too short" },
    description := none, keywords := none, author := none, headers := [] }

/-- A fetch oracle that answers success to every URL. -/
def exampleFetchOk : String → FetchResponse :=
  fun _ => { ok := true, status := 200, body := "<html>page markup</html>" }

/-- A fetch oracle for the branch-fallback scenario: the main-branch raw URL
is not found (with the usual non-empty error body), the master-branch raw
URL succeeds. -/
def exampleGhFetch : String → FetchResponse := fun u =>
  if u = "https://raw.githubusercontent.com/foo/bar/main/README.md" then
    { ok := false, status := 404, body := "404: Not Found" }
  else if u = "https://raw.githubusercontent.com/foo/bar/master/README.md" then
    { ok := true, status := 200, body := "# bar readme" }
  else { ok := false, status := 500, body := "" }

/-! ## Helper lemmas -/

theorem initializeConfig_initialized (s : ConfigState) :
    (initializeConfig s).configInitialized = true := by
  by_cases h : s.configInitialized <;> simp [initializeConfig, h]

theorem initializeConfig_of_initialized (s : ConfigState)
    (h : s.configInitialized = true) : initializeConfig s = s := by
  simp [initializeConfig, h]

theorem applySmitheryConfig_documentsCollection (cfg : CVal) (env : Env) (v : String)
    (hv : v ≠ "") (hc : cfgGet cfg "defaultCollection" = some (.str v)) :
    (applySmitheryConfig cfg env).documentsCollection = some v := by
  unfold applySmitheryConfig
  rw [hc]
  simp [jsTruthyVal, cvalToEnvString, hv]

theorem getEnvOr_of_ne (v : String) (d : String) (hv : v ≠ "") :
    getEnvOr (some v) d = v := by
  simp [getEnvOr, hv]

theorem initializeDotenv_env (s : ConfigState) : (initializeDotenv s).env = s.env := by
  by_cases h : s.dotenvInitialized <;> simp [initializeDotenv, h]

theorem initializeDotenv_pbInstances (s : ConfigState) :
    (initializeDotenv s).pbInstances = s.pbInstances := by
  by_cases h : s.dotenvInitialized <;> simp [initializeDotenv, h]

theorem initializeConfig_env (s : ConfigState) : (initializeConfig s).env = s.env := by
  by_cases h : s.configInitialized <;> simp [initializeConfig, h, initializeDotenv_env]

theorem initializeConfig_pb (s : ConfigState) (hf : s.configInitialized = false) :
    (initializeConfig s).pb =
      some { baseUrl := getEnvOr s.env.pocketbaseUrl "http://127.0.0.1:8090",
             tag := s.pbInstances } := by
  simp [initializeConfig, hf, initializeDotenv_env, initializeDotenv_pbInstances]

theorem initializeConfig_pbInstances (s : ConfigState) (hf : s.configInitialized = false) :
    (initializeConfig s).pbInstances = s.pbInstances + 1 := by
  simp [initializeConfig, hf, initializeDotenv_pbInstances]

theorem initializeConfig_docs (s : ConfigState) (hf : s.configInitialized = false) :
    (initializeConfig s).documentsCollection
      = some (getEnvOr s.env.documentsCollection "documents") := by
  simp [initializeConfig, hf, initializeDotenv_env]

theorem applyQueryAndReload_ok (q : List (String × String)) (s : ConfigState)
    (cfg : CVal) (hq : q ≠ []) (h : parseSmitheryConfig q = .ok cfg) :
    applyQueryAndReload q s = initializeConfig
      { s with env := applySmitheryConfig cfg s.env, configInitialized := false } := by
  rw [applyQueryAndReload, if_neg hq, h]

theorem applyQueryAndReload_error (q : List (String × String)) (s : ConfigState)
    (hq : q ≠ []) (h : parseSmitheryConfig q = .error ()) :
    applyQueryAndReload q s = s := by
  rw [applyQueryAndReload, if_neg hq, h]

/-! ## Claim theorems -/

/-- C2: configuration initialization is idempotent — on a state already
marked initialized, `initializeConfig` returns the state unchanged (same
client object, collection name, debug flag, and port), so a second
sequential call with no intervening override changes nothing. -/
theorem c2_idempotent_init (s : ConfigState) :
    (s.configInitialized = true → initializeConfig s = s) ∧
    initializeConfig (initializeConfig s) = initializeConfig s ∧
    (initializeConfig s).configInitialized = true := by
  refine ⟨initializeConfig_of_initialized s, ?_, initializeConfig_initialized s⟩
  exact initializeConfig_of_initialized _ (initializeConfig_initialized s)

/-- C2 witness: a concrete already-initialized state is returned unchanged
by a further call. -/
theorem c2_idempotent_init_witness :
    (let s : ConfigState :=
      { env := { pocketbaseUrl := some "http://pb.example", pocketbaseEmail := none,
                 pocketbasePassword := none, documentsCollection := some "docs",
                 debug := some "true", port := none, httpPort := none },
        pb := some { baseUrl := "http://pb.example", tag := 0 },
        documentsCollection := some "docs", debug := some true,
        httpPort := some "3000", configInitialized := true,
        dotenvInitialized := true, pbInstances := 1 }
    initializeConfig s = s ∧ initializeConfig (initializeConfig s) = initializeConfig s) := by
  exact ⟨(c2_idempotent_init _).1 rfl, (c2_idempotent_init _).2.1⟩

/-- C3: when the request-level overrides parse successfully (no strict-mode
`TypeError` in the dotted-key walk) and carry a truthy collection-name
value, applying them and clearing the initialized flag makes the next
initialization yield a configuration whose collection name is the
overridden value, whatever the prior configuration was; when the parse
throws, the handler applies nothing and the configuration state is
unchanged. -/
theorem c3_override_forces_reload :
    (∀ (q : List (String × String)) (s : ConfigState) (cfg : CVal) (v : String),
      v ≠ "" → q ≠ [] →
      parseSmitheryConfig q = .ok cfg →
      cfgGet cfg "defaultCollection" = some (.str v) →
      (applyQueryAndReload q s).documentsCollection = some v ∧
      (applyQueryAndReload q s).configInitialized = true) ∧
    (∀ (q : List (String × String)) (s : ConfigState),
      q ≠ [] → parseSmitheryConfig q = .error () →
      applyQueryAndReload q s = s) := by
  constructor
  · intro q s cfg v hv hq hparse hc
    have henv : (applySmitheryConfig cfg s.env).documentsCollection = some v :=
      applySmitheryConfig_documentsCollection _ _ v hv hc
    rw [applyQueryAndReload_ok q s cfg hq hparse]
    constructor
    · rw [initializeConfig_docs _ rfl]
      simp [henv, getEnvOr_of_ne v _ hv]
    · exact initializeConfig_initialized _
  · intro q s hq hparse
    exact applyQueryAndReload_error q s hq hparse

/-- C3 witness: overriding the collection to `"x"` on an initialized state
with a different collection name yields `"x"` after the reload, while the
query `a=x&a.b=y&defaultCollection=v` — whose dotted key descends through a
prior string value and so throws — leaves the same state untouched. -/
theorem c3_override_forces_reload_witness :
    (let s : ConfigState :=
      { env := { pocketbaseUrl := none, pocketbaseEmail := none,
                 pocketbasePassword := none, documentsCollection := some "olddocs",
                 debug := none, port := none, httpPort := none },
        pb := some { baseUrl := "http://127.0.0.1:8090", tag := 0 },
        documentsCollection := some "olddocs", debug := some false,
        httpPort := some "3000", configInitialized := true,
        dotenvInitialized := true, pbInstances := 1 }
    ((applyQueryAndReload [("defaultCollection", "x")] s).documentsCollection = some "x" ∧
     (applyQueryAndReload [("defaultCollection", "x")] s).configInitialized = true) ∧
    applyQueryAndReload [("a", "x"), ("a.b", "y"), ("defaultCollection", "v")] s = s) := by
  constructor
  · exact c3_override_forces_reload.1 _ _ (.obj [("defaultCollection", .str "x")]) "x"
      (by decide) (by decide) rfl rfl
  · exact c3_override_forces_reload.2 _ _ (by decide) rfl

/-- C6: a URL matching neither the Microsoft Learn shape nor either GitHub
shape makes the extraction dispatch fail with `unsupportedSource` and an
empty fetch trace — zero fetch calls. -/
theorem c6_unsupported_source_no_fetch (fetchF : String → FetchResponse)
    (parse : String → Page) (url : String) (now : Nat)
    (h1 : jsIncludes url "learn.microsoft.com" = false)
    (h2 : jsIncludes url "github.com" = false)
    (h3 : jsIncludes url "raw.githubusercontent.com" = false) :
    extractDocument fetchF parse url now = (.error .unsupportedSource, []) := by
  simp [extractDocument, h1, h2, h3]

/-- C6 witness: a concrete unsupported URL is rejected with no fetch, for a
fetch oracle that would answer any URL. -/
theorem c6_unsupported_source_no_fetch_witness :
    extractDocument (fun _ => { ok := true, status := 200, body := "hello" })
      (fun _ => { h1First := "", dataBiTitle := "", contentH1First := "",
                  titleTag := "", sel := fun _ => { count := 0, text := "" },
                  description := none, keywords := none, author := none,
                  headers := [] })
      "https://example.com/docs/page" 0 = (.error .unsupportedSource, []) :=
  c6_unsupported_source_no_fetch _ _ _ _ (by decide) (by decide) (by decide)

/-- C9: a successful `authenticate` invocation overwrites the process-wide
endpoint, identity, and secret with the supplied values, clears and rebuilds
the global configuration (a fresh client pointing at the supplied endpoint),
and a further initialization leaves that configuration in place, so every
subsequent operation reads the new credentials; a failed invocation leaves
the state unchanged. -/
theorem c9_authenticate_frame_effect (args : AuthArgs) (testOk : Bool)
    (s : ConfigState) (hu : args.pocketbaseUrl ≠ "") :
    (testOk = true →
      (authenticateToolHandler args testOk s).2.env.pocketbaseUrl = some args.pocketbaseUrl ∧
      (authenticateToolHandler args testOk s).2.env.pocketbaseEmail = some args.email ∧
      (authenticateToolHandler args testOk s).2.env.pocketbasePassword = some args.password ∧
      (authenticateToolHandler args testOk s).2.configInitialized = true ∧
      ((authenticateToolHandler args testOk s).2.pb.map PBClient.baseUrl)
        = some args.pocketbaseUrl ∧
      (authenticateToolHandler args testOk s).2.pbInstances = s.pbInstances + 1 ∧
      initializeConfig (authenticateToolHandler args testOk s).2
        = (authenticateToolHandler args testOk s).2) ∧
    (testOk = false → authenticateToolHandler args testOk s = (false, s)) := by
  constructor
  · intro h
    subst h
    simp only [authenticateToolHandler, if_pos trivial, if_true]
    refine ⟨?_, ?_, ?_, initializeConfig_initialized _, ?_, ?_, ?_⟩
    · rw [initializeConfig_env]
    · rw [initializeConfig_env]
    · rw [initializeConfig_env]
    · rw [initializeConfig_pb _ rfl]
      simp [getEnvOr_of_ne _ _ hu]
    · rw [initializeConfig_pbInstances _ rfl]
    · exact initializeConfig_of_initialized _ (initializeConfig_initialized _)
  · intro h
    subst h
    simp [authenticateToolHandler]

/-- C9 witness: the success and failure cases at concrete credentials and a
concrete prior state. -/
theorem c9_authenticate_frame_effect_witness :
    (let args : AuthArgs :=
      { pocketbaseUrl := "https://pb.test", email := "admin@test", password := "pw" }
    let s : ConfigState :=
      { env := { pocketbaseUrl := some "http://old", pocketbaseEmail := some "old@x",
                 pocketbasePassword := some "oldpw", documentsCollection := none,
                 debug := none, port := none, httpPort := none },
        pb := some { baseUrl := "http://old", tag := 0 },
        documentsCollection := some "documents", debug := some false,
        httpPort := some "3000", configInitialized := true,
        dotenvInitialized := true, pbInstances := 1 }
    (authenticateToolHandler args true s).2.env.pocketbaseUrl = some "https://pb.test" ∧
    ((authenticateToolHandler args true s).2.pb.map PBClient.baseUrl)
      = some "https://pb.test" ∧
    authenticateToolHandler args false s = (false, s)) := by
  refine ⟨?_, ?_, ?_⟩
  · exact ((c9_authenticate_frame_effect _ true _ (by decide)).1 rfl).1
  · exact ((c9_authenticate_frame_effect _ true _ (by decide)).1 rfl).2.2.2.2.1
  · exact (c9_authenticate_frame_effect _ false _ (by decide)).2 rfl

theorem find?_append_none {α : Type} (p : α → Bool) (l1 l2 : List α)
    (h : l1.find? p = none) : (l1 ++ l2).find? p = l2.find? p := by
  induction l1 with
  | nil => simp
  | cons a l ih =>
    cases hp : p a with
    | true =>
      rw [List.find?_cons_of_pos _ hp] at h
      exact absurd h (by simp)
    | false =>
      rw [List.find?_cons_of_neg _ (by simp [hp])] at h
      rw [List.cons_append, List.find?_cons_of_neg _ (by simp [hp])]
      exact ih h

theorem replaceById_append (l1 l2 : List StoredDoc) (i : Nat) (d : StoredDoc) :
    replaceById (l1 ++ l2) i d = replaceById l1 i d ++ replaceById l2 i d := by
  simp [replaceById]

theorem replaceById_not_mem (docs : List StoredDoc) (i : Nat) (d : StoredDoc)
    (h : ∀ x ∈ docs, x.id ≠ i) : replaceById docs i d = docs := by
  unfold replaceById
  induction docs with
  | nil => rfl
  | cons a l ih =>
    simp only [List.map_cons]
    rw [if_neg (h a (by simp))]
    rw [ih (fun x hx => h x (by simp [hx]))]

theorem storeDocument_create (e : DocData) (t : Nat) (s : Store)
    (h : findByUrl s.docs e.metadata.url = none) :
    storeDocument e t s =
      ({ id := s.nextId, title := e.title, content := e.content,
         metadata := e.metadata, created := t, updated := none }, false,
       { docs := s.docs ++ [{ id := s.nextId, title := e.title, content := e.content,
                              metadata := e.metadata, created := t, updated := none }],
         nextId := s.nextId + 1, creates := s.creates + 1, updates := s.updates }) := by
  simp [storeDocument, h]

theorem storeDocument_update (e : DocData) (t : Nat) (s : Store) (d : StoredDoc)
    (h : findByUrl s.docs e.metadata.url = some d) :
    storeDocument e t s =
      ({ id := d.id, title := e.title, content := e.content,
         metadata := e.metadata, created := d.created, updated := some t }, true,
       { docs := replaceById s.docs d.id
           { id := d.id, title := e.title, content := e.content,
             metadata := e.metadata, created := d.created, updated := some t },
         nextId := s.nextId, creates := s.creates, updates := s.updates + 1 }) := by
  simp [storeDocument, h]

/-- C1: two ingests of the same URL (both extractions succeeding) form an
upsert by identity — the first creates (`isUpdate = false`), the second
finds the first's record by `metadata.url` equality and updates it in place
(`isUpdate = true`, same store id, content and title and metadata from the
second extraction, `created` preserved, `updated` stamped), each ingest
performing exactly one create-or-update, and afterwards exactly one record
with that URL exists. -/
theorem c1_upsert_identity (u : String) (e1 e2 : DocData) (s0 : Store) (t1 t2 : Nat)
    (_hq : jsIncludes u "\"" = false)
    (h1 : e1.metadata.url = u) (h2 : e2.metadata.url = u)
    (h0 : List.find? (fun d => d.metadata.url == u) s0.docs = none)
    (hid : ∀ d ∈ s0.docs, d.id ≠ s0.nextId) :
    ∀ d1 w1 s1, storeDocument e1 t1 s0 = (d1, w1, s1) →
    ∀ d2 w2 s2, storeDocument e2 t2 s1 = (d2, w2, s2) →
      w1 = false ∧ w2 = true ∧
      d2.id = d1.id ∧ d2.content = e2.content ∧ d2.title = e2.title ∧
      d2.metadata = e2.metadata ∧ d2.created = d1.created ∧ d2.updated = some t2 ∧
      s1.creates + s1.updates = s0.creates + s0.updates + 1 ∧
      s2.creates + s2.updates = s1.creates + s1.updates + 1 ∧
      (s2.docs.filter (fun d => d.metadata.url == u)).length = 1 := by
  have h0' : findByUrl s0.docs e1.metadata.url = none := by rw [h1]; exact h0
  have hc := storeDocument_create e1 t1 s0 h0'
  have hnone : ∀ d ∈ s0.docs, ¬(d.metadata.url == u) := List.find?_eq_none.mp h0
  have hfind : findByUrl (s0.docs ++
      [{ id := s0.nextId, title := e1.title, content := e1.content,
         metadata := e1.metadata, created := t1, updated := none }]) e2.metadata.url
      = some { id := s0.nextId, title := e1.title, content := e1.content,
               metadata := e1.metadata, created := t1, updated := none } := by
    unfold findByUrl
    rw [h2, find?_append_none _ _ _ h0]
    simp [List.find?, h1]
  have hu := storeDocument_update e2 t2
    { docs := s0.docs ++ [{ id := s0.nextId, title := e1.title, content := e1.content,
                            metadata := e1.metadata, created := t1, updated := none }],
      nextId := s0.nextId + 1, creates := s0.creates + 1, updates := s0.updates }
    { id := s0.nextId, title := e1.title, content := e1.content,
      metadata := e1.metadata, created := t1, updated := none } hfind
  intro d1 w1 s1 hs1 d2 w2 s2 hs2
  rw [hc] at hs1
  injection hs1 with hd1 hs1'
  injection hs1' with hw1 hst1
  subst hd1; subst hw1; subst hst1
  rw [hu] at hs2
  injection hs2 with hd2 hs2'
  injection hs2' with hw2 hst2
  subst hd2; subst hw2; subst hst2
  refine ⟨rfl, rfl, rfl, rfl, rfl, rfl, rfl, rfl, by dsimp only; omega,
    by dsimp only; omega, ?_⟩
  have hnil : List.filter (fun d => d.metadata.url == u) s0.docs = [] := by
    rw [List.filter_eq_nil_iff]
    intro d hd
    exact hnone d hd
  dsimp only
  rw [replaceById_append, replaceById_not_mem s0.docs _ _ hid]
  simp [replaceById, List.filter_append, hnil, h2]

/-- C1 witness: a concrete double ingest of one URL against an empty
store. -/
theorem c1_upsert_identity_witness :
    ((storeDocument exampleIngest1 5 exampleStore0).2.1 = false) ∧
    ((storeDocument exampleIngest2 9
        (storeDocument exampleIngest1 5 exampleStore0).2.2).2.1 = true) ∧
    ((storeDocument exampleIngest2 9
        (storeDocument exampleIngest1 5 exampleStore0).2.2).1.id
       = (storeDocument exampleIngest1 5 exampleStore0).1.id) ∧
    ((storeDocument exampleIngest2 9
        (storeDocument exampleIngest1 5 exampleStore0).2.2).1.content
       = "second v2") := by
  have h := c1_upsert_identity "https://github.com/a/b" exampleIngest1 exampleIngest2
    exampleStore0 5 9 (by decide) rfl rfl rfl (by simp [exampleStore0])
    (storeDocument exampleIngest1 5 exampleStore0).1
    (storeDocument exampleIngest1 5 exampleStore0).2.1
    (storeDocument exampleIngest1 5 exampleStore0).2.2 rfl
    (storeDocument exampleIngest2 9 (storeDocument exampleIngest1 5 exampleStore0).2.2).1
    (storeDocument exampleIngest2 9 (storeDocument exampleIngest1 5 exampleStore0).2.2).2.1
    (storeDocument exampleIngest2 9 (storeDocument exampleIngest1 5 exampleStore0).2.2).2.2
    rfl
  exact ⟨h.1, h.2.1, h.2.2.1, h.2.2.2.1⟩

theorem getSessionKey_insert (sid : String) (v : Session)
    (l : List (String × Session)) :
    getSessionKey sid (insertSessionKey sid v l) = some v := by
  induction l with
  | nil => simp [insertSessionKey, getSessionKey]
  | cons kv rest ih =>
    by_cases h : kv.1 = sid
    · simp [insertSessionKey, h, getSessionKey]
    · simp only [insertSessionKey, getSessionKey]
      rw [if_neg h, getSessionKey, if_neg h]
      exact ih

/-- C7 counterexample: on an empty registry, a request carrying the unknown
session id `"abc"` is served under `"abc"` itself — the freshly minted
UUID is discarded, so the returned id is not a newly minted one. -/
theorem c7_unknown_id_keeps_caller_id :
    ((handleMcpSession { streamable := [], nextTag := 0 } (some "abc")
        "3f2a be minted").2.1 = "abc") ∧
    ("abc" ≠ "3f2a be minted") := by
  constructor
  · rfl
  · decide

/-- C7 (amended): a request whose session id names a registered (hence
non-closed) session is routed to that same session object with the registry
unchanged; a request with no id (or an empty one) creates a fresh session
under the minted UUID and registers it; a request with an unknown non-empty
id creates a fresh session but registers and returns it under the
caller-supplied id, not a newly minted one. -/
theorem c7_session_reuse_vs_creation (r : Registry) (header : Option String)
    (uuid : String) :
    (∀ s t, header = some s → s ≠ "" → lookupSession r s = some t →
      handleMcpSession r header uuid = (t, t.sessionId, r)) ∧
    ((header = none ∨ header = some "") →
      (handleMcpSession r header uuid).2.1 = uuid ∧
      (handleMcpSession r header uuid).1.sessionId = uuid ∧
      (handleMcpSession r header uuid).1.tag = r.nextTag ∧
      lookupSession (handleMcpSession r header uuid).2.2 uuid
        = some (handleMcpSession r header uuid).1) ∧
    (∀ s, header = some s → s ≠ "" → lookupSession r s = none →
      (handleMcpSession r header uuid).2.1 = s ∧
      (handleMcpSession r header uuid).1.tag = r.nextTag ∧
      lookupSession (handleMcpSession r header uuid).2.2 s
        = some (handleMcpSession r header uuid).1) := by
  refine ⟨?_, ?_, ?_⟩
  · intro s t hs hne hl
    subst hs
    simp [handleMcpSession, hne, hl]
  · intro hcase
    rcases hcase with h | h <;> subst h <;>
      simp [handleMcpSession, lookupSession, getSessionKey_insert]
  · intro s hs hne hl
    subst hs
    have hl' : getSessionKey s r.streamable = none := hl
    simp [handleMcpSession, hne, hl', lookupSession, getSessionKey_insert]

/-- C7 witness for the amended theorem: reuse of a registered id, creation
under the minted UUID when no id is carried, and creation under the supplied
id when it is unknown. -/
theorem c7_session_reuse_vs_creation_witness :
    (handleMcpSession exampleRegistry (some "s1") "u1"
       = (exampleSession, "s1", exampleRegistry)) ∧
    ((handleMcpSession exampleRegistry none "u1").2.1 = "u1") ∧
    ((handleMcpSession exampleRegistry (some "zz") "u1").2.1 = "zz") := by
  refine ⟨?_, ?_, ?_⟩
  · exact (c7_session_reuse_vs_creation exampleRegistry (some "s1") "u1").1 "s1"
      exampleSession rfl (by decide) rfl
  · exact ((c7_session_reuse_vs_creation exampleRegistry none "u1").2.1 (Or.inl rfl)).1
  · exact ((c7_session_reuse_vs_creation exampleRegistry (some "zz") "u1").2.2 "zz" rfl
      (by decide) rfl).1

/-- C8 counterexample: the reconfiguration channel does not override the
debug flag — applying a request carrying `debug=true` leaves `DEBUG`
sourced from the untouched environment, so the reloaded configuration still
has debug disabled. -/
theorem c8_debug_not_overridden :
    ((applyQueryAndReload [("debug", "true")]
        { env := { pocketbaseUrl := none, pocketbaseEmail := none,
                   pocketbasePassword := none, documentsCollection := none,
                   debug := some "false", port := none, httpPort := none },
          pb := none, documentsCollection := none, debug := none,
          httpPort := none, configInitialized := false,
          dotenvInitialized := false, pbInstances := 0 }).env.debug = some "false") ∧
    ((applyQueryAndReload [("debug", "true")]
        { env := { pocketbaseUrl := none, pocketbaseEmail := none,
                   pocketbasePassword := none, documentsCollection := none,
                   debug := some "false", port := none, httpPort := none },
          pb := none, documentsCollection := none, debug := none,
          httpPort := none, configInitialized := false,
          dotenvInitialized := false, pbInstances := 0 }).debug = some false) := by
  constructor
  · rfl
  · rfl

/-- C8 (amended): the dot-separated request-level reconfiguration channel
overrides the store endpoint, the identity, the secret, and the collection
name — each taking effect on the reloaded configuration and persisting in
the environment until overridden again — but it does not override the debug
flag (no recognised key touches `DEBUG`). -/
theorem c8_reconfiguration_channel (env : Env) (s : ConfigState)
    (u e p c : String) (hu : u ≠ "") (he : e ≠ "") (hp : p ≠ "") (hc : c ≠ "") :
    (∃ cfg, parseSmitheryConfig
        [("pocketbaseUrl", u), ("pocketbaseEmail", e),
         ("pocketbasePassword", p), ("defaultCollection", c)] = .ok cfg ∧
      (applySmitheryConfig cfg env).pocketbaseUrl = some u ∧
      (applySmitheryConfig cfg env).pocketbaseEmail = some e ∧
      (applySmitheryConfig cfg env).pocketbasePassword = some p ∧
      (applySmitheryConfig cfg env).documentsCollection = some c ∧
      (applySmitheryConfig cfg env).debug = env.debug) ∧
    ((applyQueryAndReload
        [("pocketbaseUrl", u), ("pocketbaseEmail", e),
         ("pocketbasePassword", p), ("defaultCollection", c)] s).documentsCollection
      = some c) ∧
    (((applyQueryAndReload
        [("pocketbaseUrl", u), ("pocketbaseEmail", e),
         ("pocketbasePassword", p), ("defaultCollection", c)] s).pb.map PBClient.baseUrl)
      = some u) ∧
    (initializeConfig (applyQueryAndReload
        [("pocketbaseUrl", u), ("pocketbaseEmail", e),
         ("pocketbasePassword", p), ("defaultCollection", c)] s)
      = applyQueryAndReload
        [("pocketbaseUrl", u), ("pocketbaseEmail", e),
         ("pocketbasePassword", p), ("defaultCollection", c)] s) := by
  have hparse : parseSmitheryConfig
      [("pocketbaseUrl", u), ("pocketbaseEmail", e),
       ("pocketbasePassword", p), ("defaultCollection", c)]
      = .ok (.obj [("pocketbaseUrl", .str u), ("pocketbaseEmail", .str e),
                   ("pocketbasePassword", .str p), ("defaultCollection", .str c)]) := rfl
  have happ : ∀ env0 : Env,
      applySmitheryConfig
        (.obj [("pocketbaseUrl", .str u), ("pocketbaseEmail", .str e),
               ("pocketbasePassword", .str p), ("defaultCollection", .str c)]) env0
      = { env0 with pocketbaseUrl := some u, pocketbaseEmail := some e,
                    pocketbasePassword := some p, documentsCollection := some c } := by
    intro env0
    simp [applySmitheryConfig, cfgGet, getKey, jsTruthyVal, cvalToEnvString,
      hu, he, hp, hc]
  have hreload := applyQueryAndReload_ok
    [("pocketbaseUrl", u), ("pocketbaseEmail", e),
     ("pocketbasePassword", p), ("defaultCollection", c)] s _ (by simp) hparse
  refine ⟨⟨_, hparse, ?_, ?_, ?_, ?_, ?_⟩, ?_, ?_, ?_⟩
  · rw [happ]
  · rw [happ]
  · rw [happ]
  · rw [happ]
  · rw [happ]
  · rw [hreload, initializeConfig_docs _ rfl, happ]
    simp [getEnvOr, hc]
  · rw [hreload, initializeConfig_pb _ rfl, happ]
    simp [getEnvOr, hu]
  · rw [hreload]
    exact initializeConfig_of_initialized _ (initializeConfig_initialized _)

/-- C8 witness for the amended theorem: a concrete override of all four
recognised keys. -/
theorem c8_reconfiguration_channel_witness :
    ∃ cfg, parseSmitheryConfig
        [("pocketbaseUrl", "https://pb.example"), ("pocketbaseEmail", "a@b"),
         ("pocketbasePassword", "pw"), ("defaultCollection", "mydocs")] = .ok cfg ∧
      ((applySmitheryConfig cfg
        { pocketbaseUrl := none, pocketbaseEmail := none, pocketbasePassword := none,
          documentsCollection := none, debug := some "false", port := none,
          httpPort := none }).pocketbaseUrl = some "https://pb.example") ∧
      ((applySmitheryConfig cfg
        { pocketbaseUrl := none, pocketbaseEmail := none, pocketbasePassword := none,
          documentsCollection := none, debug := some "false", port := none,
          httpPort := none }).debug = some "false") := by
  obtain ⟨cfg, hp, h1, _h2, _h3, _h4, h5⟩ := (c8_reconfiguration_channel
    { pocketbaseUrl := none, pocketbaseEmail := none, pocketbasePassword := none,
      documentsCollection := none, debug := some "false", port := none,
      httpPort := none }
    { env := { pocketbaseUrl := none, pocketbaseEmail := none,
               pocketbasePassword := none, documentsCollection := none,
               debug := some "false", port := none, httpPort := none },
      pb := none, documentsCollection := none, debug := none, httpPort := none,
      configInitialized := false, dotenvInitialized := false, pbInstances := 0 }
    "https://pb.example" "a@b" "pw" "mydocs"
    (by decide) (by decide) (by decide) (by decide)).1
  exact ⟨cfg, hp, h1, h5⟩

theorem msContentLoop_cases (p : Page) :
    ∀ (sels : List String) (acc : String),
      msContentLoop p sels acc = acc ∨
      ∃ selName ∈ sels, msContentLoop p sels acc = jsTrim (p.sel selName).text := by
  intro sels
  induction sels with
  | nil => intro acc; left; rfl
  | cons a rest ih =>
    intro acc
    simp only [msContentLoop]
    by_cases hc : (p.sel a).count > 0
    · rw [if_pos hc]
      by_cases hl : (jsTrim (p.sel a).text).length > 100
      · right
        exact ⟨a, by simp, by rw [if_pos hl]⟩
      · rw [if_neg hl]
        rcases ih (jsTrim (p.sel a).text) with h | ⟨s, hs, he⟩
        · right; exact ⟨a, by simp, h⟩
        · right; exact ⟨s, by simp [hs], he⟩
    · rw [if_neg hc]
      rcases ih acc with h | ⟨s, hs, he⟩
      · left; exact h
      · right; exact ⟨s, by simp [hs], he⟩

/-- C4: the documentation-site cascade, literal case — on a page whose
`main article` holds 150 characters of text, with no
`[data-bi-name="content"]` element and no `h1`, extraction returns the
article's whitespace-collapsed text as content and the `title` tag's text as
title; and on any fetch-ok input whose every content selector yields text
below the 50-character minimum after collapsing, extraction fails with
`insufficientContent`. -/
theorem c4_selector_cascade :
    ((Except.map DocData.content
        (extractFromMicrosoftLearn exampleFetchOk (fun _ => examplePage)
          "https://learn.microsoft.com/azure/functions" 7).1)
       = .ok exampleArticleCollapsed ∧
     (Except.map DocData.title
        (extractFromMicrosoftLearn exampleFetchOk (fun _ => examplePage)
          "https://learn.microsoft.com/azure/functions" 7).1)
       = .ok "Azure Functions overview - Microsoft Learn" ∧
     exampleArticleText.length = 150 ∧
     (examplePage.sel "[data-bi-name=\"content\"]").count = 0 ∧
     examplePage.h1First = "") ∧
    (∀ (fetchF : String → FetchResponse) (parse : String → Page)
       (url : String) (now : Nat),
      (fetchF url).ok = true →
      (∀ selName ∈ contentSelectors,
        (jsTrim (collapseWs (jsTrim ((parse (fetchF url).body).sel selName).text))).length
          < 50) →
      (extractFromMicrosoftLearn fetchF parse url now).1 = .error .insufficientContent) := by
  constructor
  · exact ⟨by set_option maxRecDepth 8000 in rfl,
      by set_option maxRecDepth 8000 in rfl, rfl, rfl, rfl⟩
  · intro fetchF parse url now hok hall
    rcases msContentLoop_cases (parse (fetchF url).body) contentSelectors "" with h | ⟨s, hs, he⟩
    · have hlen : (jsTrim (collapseWs (msContentLoop (parse (fetchF url).body)
          contentSelectors ""))).length < 50 := by
        rw [h]; decide
      simp [extractFromMicrosoftLearn, hok, hlen]
    · have hlen : (jsTrim (collapseWs (msContentLoop (parse (fetchF url).body)
          contentSelectors ""))).length < 50 := by
        rw [he]; exact hall s hs
      simp [extractFromMicrosoftLearn, hok, hlen]

/-- C4 witness: a page whose every selector region is 9 characters long is
rejected with `insufficientContent`. -/
theorem c4_selector_cascade_witness :
    (extractFromMicrosoftLearn exampleFetchOk (fun _ => exampleThinPage)
      "https://learn.microsoft.com/short" 0).1 = .error .insufficientContent :=
  c4_selector_cascade.2 exampleFetchOk (fun _ => exampleThinPage)
    "https://learn.microsoft.com/short" 0 rfl (by decide)

theorem finishGitHub_trace (url rawUrl content : String) (now : Nat)
    (trace : List String) : (finishGitHub url rawUrl content now trace).2 = trace := by
  unfold finishGitHub
  by_cases h : jsTrim content = "" <;> simp [h]

/-- C5: when the derived raw URL lies on the main branch and its fetch
returns a non-success response, extraction retries exactly once against the
master branch (the fetch trace is precisely the main URL then the master
URL); if the retry also fails the error is `fetchError` with the first
response's status; if the retry succeeds (and the first response body is
non-blank) the produced metadata's `rawUrl` is the master-branch URL; and no
call ever performs more than two fetches. -/
theorem c5_branch_fallback :
    (∀ (fetchF : String → FetchResponse) (url rawUrl : String) (now : Nat),
      toRawUrl url = .ok rawUrl →
      jsIncludes rawUrl "/main/" = true →
      (fetchF rawUrl).ok = false →
      ((extractFromGitHub fetchF url now).2
         = [rawUrl, jsReplaceFirst rawUrl "/main/" "/master/"]) ∧
      ((fetchF (jsReplaceFirst rawUrl "/main/" "/master/")).ok = false →
        (extractFromGitHub fetchF url now).1
          = .error (.fetchError (fetchF rawUrl).status)) ∧
      ((fetchF (jsReplaceFirst rawUrl "/main/" "/master/")).ok = true →
        jsTrim (fetchF rawUrl).body ≠ "" →
        Except.map (fun d => d.metadata.rawUrl) (extractFromGitHub fetchF url now).1
          = .ok (some (jsReplaceFirst rawUrl "/main/" "/master/")))) ∧
    (∀ (fetchF : String → FetchResponse) (url : String) (now : Nat),
      (extractFromGitHub fetchF url now).2.length ≤ 2) := by
  constructor
  · intro fetchF url rawUrl now hraw hmain hfail
    refine ⟨?_, ?_, ?_⟩
    · by_cases hm : (fetchF (jsReplaceFirst rawUrl "/main/" "/master/")).ok <;>
        simp [extractFromGitHub, hraw, hmain, hfail, hm, finishGitHub_trace]
    · intro hm
      simp [extractFromGitHub, hraw, hmain, hfail, hm]
    · intro hm hbody
      simp [extractFromGitHub, hraw, hmain, hfail, hm, finishGitHub, hbody, Except.map]
  · intro fetchF url now
    rcases hraw : toRawUrl url with e | raw
    · simp [extractFromGitHub, hraw]
    · by_cases h1 : (fetchF raw).ok
      · simp [extractFromGitHub, hraw, h1, finishGitHub_trace]
      · by_cases h2 : jsIncludes raw "/main/"
        · by_cases h3 : (fetchF (jsReplaceFirst raw "/main/" "/master/")).ok <;>
            simp [extractFromGitHub, hraw, h1, h2, h3, finishGitHub_trace]
        · simp [extractFromGitHub, hraw, h1, h2]

/-- C5 witness: a repository URL whose README is fetched from the main
branch, answered 404, retried once against master and served from there. -/
theorem c5_branch_fallback_witness :
    ((extractFromGitHub exampleGhFetch "https://github.com/foo/bar" 3).2
       = ["https://raw.githubusercontent.com/foo/bar/main/README.md",
          "https://raw.githubusercontent.com/foo/bar/master/README.md"]) ∧
    (Except.map (fun d => d.metadata.rawUrl)
        (extractFromGitHub exampleGhFetch "https://github.com/foo/bar" 3).1
       = .ok (some "https://raw.githubusercontent.com/foo/bar/master/README.md")) := by
  have h := c5_branch_fallback.1 exampleGhFetch "https://github.com/foo/bar"
    "https://raw.githubusercontent.com/foo/bar/main/README.md" 3 rfl (by decide) rfl
  exact ⟨h.1, h.2.2 rfl (by decide)⟩

theorem splitQuotes_quote (l : List Char) :
    splitQuotes ('"' :: l) = [] :: splitQuotes l := by
  simp [splitQuotes]

theorem splitQuotes_append (a : List Char) (ha : ∀ c ∈ a, c ≠ '"') :
    ∀ (b h : List Char) (t : List (List Char)),
      splitQuotes b = h :: t → splitQuotes (a ++ b) = (a ++ h) :: t := by
  induction a with
  | nil => intro b h t hb; simpa using hb
  | cons c rest ih =>
    intro b h t hb
    have hc : c ≠ '"' := ha c (by simp)
    have hr := ih (fun x hx => ha x (by simp [hx])) b h t hb
    rw [List.cons_append]
    have hstep : splitQuotes (c :: (rest ++ b))
        = match splitQuotes (rest ++ b) with
          | [] => [[c]]
          | h' :: t' => (c :: h') :: t' := by
      simp [splitQuotes, hc]
    rw [hstep, hr]
    simp

/-- C10: the search filter is built by raw interpolation — for a query with
no double quote its quote-segmentation is exactly the two-literal template
shape (the query appearing verbatim as both string literals), while for some
query containing a double quote the segmentation no longer has that shape;
the same holds for the `metadata.url` identity filter of the upsert. -/
theorem c10_filter_interpolation :
    (∀ q : String, (∀ c ∈ q.data, c ≠ '"') →
      splitQuotes (searchFilter q).data
        = ["title ~ ".data, q.data, " || content ~ ".data, q.data, []] ∧
      splitQuotes (urlFilter q).data
        = ["metadata.url = ".data, q.data, []]) ∧
    (∃ q : String, (∃ c ∈ q.data, c = '"') ∧
      splitQuotes (searchFilter q).data
        ≠ ["title ~ ".data, q.data, " || content ~ ".data, q.data, []] ∧
      splitQuotes (urlFilter q).data
        ≠ ["metadata.url = ".data, q.data, []]) := by
  constructor
  · intro q hq
    have htq : ∀ c ∈ ("title ~ ".data : List Char), c ≠ '"' := by decide
    have hmq : ∀ c ∈ (" || content ~ ".data : List Char), c ≠ '"' := by decide
    have huq : ∀ c ∈ ("metadata.url = ".data : List Char), c ≠ '"' := by decide
    have e1 : splitQuotes (q.data ++ ['"']) = [q.data, []] := by
      simpa using splitQuotes_append q.data hq ['"'] [] [[]] rfl
    constructor
    · have e2 : splitQuotes (" || content ~ ".data ++ ('"' :: (q.data ++ ['"'])))
          = [" || content ~ ".data, q.data, []] := by
        have hb : splitQuotes ('"' :: (q.data ++ ['"'])) = [] :: [q.data, []] := by
          rw [splitQuotes_quote, e1]
        simpa using splitQuotes_append (" || content ~ ".data) hmq _ _ _ hb
      have e3 : splitQuotes (q.data ++ ('"' :: (" || content ~ ".data
            ++ ('"' :: (q.data ++ ['"'])))))
          = [q.data, " || content ~ ".data, q.data, []] := by
        have hb : splitQuotes ('"' :: (" || content ~ ".data ++ ('"' :: (q.data ++ ['"']))))
            = [] :: [" || content ~ ".data, q.data, []] := by
          rw [splitQuotes_quote, e2]
        simpa using splitQuotes_append q.data hq _ _ _ hb
      have e4 : splitQuotes ("title ~ ".data ++ ('"' :: (q.data ++ ('"'
            :: (" || content ~ ".data ++ ('"' :: (q.data ++ ['"'])))))))
          = ["title ~ ".data, q.data, " || content ~ ".data, q.data, []] := by
        have hb : splitQuotes ('"' :: (q.data ++ ('"' :: (" || content ~ ".data
              ++ ('"' :: (q.data ++ ['"']))))))
            = [] :: [q.data, " || content ~ ".data, q.data, []] := by
          rw [splitQuotes_quote, e3]
        simpa using splitQuotes_append ("title ~ ".data) htq _ _ _ hb
      have hdata : (searchFilter q).data
          = "title ~ ".data ++ ('"' :: (q.data ++ ('"' :: (" || content ~ ".data
              ++ ('"' :: (q.data ++ ['"'])))))) := by
        show ("title ~ \"" ++ q ++ "\" || content ~ \"" ++ q ++ "\"").data = _
        rw [String.data_append, String.data_append, String.data_append,
          String.data_append]
        rw [(by decide : ("title ~ \"" : String).data = "title ~ ".data ++ ['"'])]
        rw [(by decide : ("\" || content ~ \"" : String).data
            = '"' :: (" || content ~ ".data ++ ['"']))]
        rw [(by decide : ("\"" : String).data = ['"'])]
        simp
      rw [hdata, e4]
    · have eu : splitQuotes ("metadata.url = ".data ++ ('"' :: (q.data ++ ['"'])))
          = ["metadata.url = ".data, q.data, []] := by
        have hb : splitQuotes ('"' :: (q.data ++ ['"'])) = [] :: [q.data, []] := by
          rw [splitQuotes_quote, e1]
        simpa using splitQuotes_append ("metadata.url = ".data) huq _ _ _ hb
      have hdata : (urlFilter q).data
          = "metadata.url = ".data ++ ('"' :: (q.data ++ ['"'])) := by
        show ("metadata.url = \"" ++ q ++ "\"").data = _
        rw [String.data_append, String.data_append]
        rw [(by decide : ("metadata.url = \"" : String).data
            = "metadata.url = ".data ++ ['"'])]
        rw [(by decide : ("\"" : String).data = ['"'])]
        simp
      rw [hdata, eu]
  · refine ⟨"\"", by decide, by decide, by decide⟩

/-- C10 witness: the template shape at a concrete quote-free query. -/
theorem c10_filter_interpolation_witness :
    splitQuotes (searchFilter "kubernetes").data
      = ["title ~ ".data, "kubernetes".data, " || content ~ ".data,
         "kubernetes".data, []] ∧
    splitQuotes (urlFilter "kubernetes").data
      = ["metadata.url = ".data, "kubernetes".data, []] :=
  c10_filter_interpolation.1 "kubernetes" (by decide)

end DocMcp
